import Mathlib

/-!
Shallow embedding of the Hangman game engine (`hangman.py`) and proofs of the
specification claims about it.

Modelling conventions:
* Python strings are lists of characters (`PyStr`).
* The Python `set` of guessed letters is a duplicate-free list; only membership
  matters, mirroring set semantics (`setAdd` inserts without duplicating).
* Python integers are `Int` (they can go negative, which matters for `lives`).
* Wall-clock instants and durations are exact rationals `ℚ`; `time.time()` is
  modelled by passing the current instant explicitly.
* `raise ValueError` is modelled by `Except.error PyError.ValueError`.
* `random.choice` is modelled by an arbitrary index into the fixed word list.
-/

set_option maxHeartbeats 1000000

namespace Hangman

/-- Python strings modelled as lists of characters. -/
abbrev PyStr := List Char

/-- Enumeration `GameLevel` from the source. -/
inductive GameLevel where
  | BASIC
  | INTERMEDIATE
  deriving DecidableEq, Repr

/-- Enumeration `GameState` from the source. -/
inductive GameState where
  | PLAYING
  | WON
  | LOST
  deriving DecidableEq, Repr

/-- The single error kind the engine can raise (`ValueError` in the source). -/
inductive PyError where
  | ValueError
  deriving DecidableEq, Repr

/-- The mutable state of `HangmanGame` (fields of `self` in the source). -/
structure HangmanGame where
  level : GameLevel
  lives : Int
  state : GameState
  guessed_letters : List Char
  timer_start : Option ℚ
  timer_duration : ℚ
  target : PyStr
  deriving DecidableEq, Repr

/-- The `BASIC_WORDS` class constant from the source. -/
def BASIC_WORDS : List PyStr :=
  ["PYTHON".toList, "PROGRAMMING".toList, "COMPUTER".toList, "KEYBOARD".toList,
   "MONITOR".toList, "SOFTWARE".toList, "HARDWARE".toList, "INTERNET".toList,
   "WEBSITE".toList, "DATABASE".toList, "FUNCTION".toList, "VARIABLE".toList,
   "BOOLEAN".toList, "INTEGER".toList, "STRING".toList]

/-- The `INTERMEDIATE_PHRASES` class constant from the source. -/
def INTERMEDIATE_PHRASES : List PyStr :=
  ["HELLO WORLD".toList, "COMPUTER SCIENCE".toList, "SOFTWARE DEVELOPMENT".toList,
   "ARTIFICIAL INTELLIGENCE".toList, "MACHINE LEARNING".toList, "DATA STRUCTURE".toList,
   "OBJECT ORIENTED".toList, "VERSION CONTROL".toList, "USER INTERFACE".toList]

/-- The candidate list used by `__init__` for a given level. -/
def wordsFor : GameLevel → List PyStr
  | GameLevel.BASIC => BASIC_WORDS
  | GameLevel.INTERMEDIATE => INTERMEDIATE_PHRASES

/-- Python `s.isalpha()`: true iff the string is non-empty and all characters
are alphabetic (the engine only ever deals in ASCII, where Lean's
`Char.isAlpha` agrees with Python). -/
def pyIsAlpha (s : PyStr) : Bool := !s.isEmpty && s.all Char.isAlpha

/-- The guard of the input validation in `make_guess`:
`not letter or len(letter) != 1 or not letter.isalpha()`. -/
def invalidGuess (s : PyStr) : Bool := s.isEmpty || s.length != 1 || !pyIsAlpha s

/-- Python `s.upper()` on an ASCII string. -/
def pyUpper (s : PyStr) : PyStr := s.map Char.toUpper

/-- Python `set.add`: insert without duplicating (membership semantics). -/
def setAdd (s : List Char) (c : Char) : List Char :=
  if s.contains c then s else c :: s

/-- The set comprehension in `_update_game_state`:
`set(char.upper() for char in self.target if char.isalpha())` (as a list;
duplicates are irrelevant for the subset test). -/
def targetLetters (t : PyStr) : List Char :=
  (t.filter Char.isAlpha).map Char.toUpper

/-- Python `a.issubset(b)` on character sets represented as lists. -/
def issubset (a b : List Char) : Bool := a.all fun x => b.contains x

/-- Method `_update_game_state` from the source: the loss check (`lives <= 0`)
runs first and returns; only then is the win check (all target letters
guessed) evaluated. -/
def update_game_state (g : HangmanGame) : HangmanGame :=
  if g.lives ≤ 0 then { g with state := GameState.LOST }
  else if issubset (targetLetters g.target) g.guessed_letters then
    { g with state := GameState.WON }
  else g

/-- Method `make_guess` from the source: validate, uppercase, answer repeats
without mutating, otherwise record the guess, decrement `lives` on a miss and
re-evaluate the game state. -/
def make_guess (g : HangmanGame) (letter : PyStr) :
    Except PyError (Bool × HangmanGame) :=
  if invalidGuess letter then Except.error PyError.ValueError
  else
    let c := Char.toUpper (letter.headD 'A')
    if g.guessed_letters.contains c then
      Except.ok ((pyUpper g.target).contains c, g)
    else
      let g1 := { g with guessed_letters := setAdd g.guessed_letters c }
      let is_correct := (pyUpper g.target).contains c
      let g2 := if is_correct then g1 else { g1 with lives := g1.lives - 1 }
      Except.ok (is_correct, update_game_state g2)

/-- Method `start_timer` from the source; `time.time()` is passed in as `now`. -/
def start_timer (g : HangmanGame) (now : ℚ) : HangmanGame :=
  { g with timer_start := some now }

/-- Python `int(q)` on a rational: truncation toward zero. -/
def pyInt (q : ℚ) : ℤ := if 0 ≤ q then ⌊q⌋ else ⌈q⌉

/-- Method `get_remaining_time` from the source:
`max(0, int(remaining + 0.5))`, or `None` when no timer is running. -/
def get_remaining_time (g : HangmanGame) (now : ℚ) : Option ℤ :=
  match g.timer_start with
  | none => none
  | some start =>
      let elapsed := now - start
      let remaining := g.timer_duration - elapsed
      some (max 0 (pyInt (remaining + 1/2)))

/-- Method `handle_timeout` from the source: decrement `lives`, re-evaluate the
game state, then clear the timer. -/
def handle_timeout (g : HangmanGame) : HangmanGame :=
  let g1 := update_game_state { g with lives := g.lives - 1 }
  { g1 with timer_start := none }

/-- Method `get_display_word` from the source. A Python character is a
one-character string, so the basic branch's `' '.join` is `List.intersperse`
and the intermediate branch's `''.join` is `List.flatten` followed by
`rstrip`. -/
def get_display_word (g : HangmanGame) : PyStr :=
  match g.level with
  | GameLevel.BASIC =>
      List.intersperse ' '
        (g.target.map fun ch =>
          if g.guessed_letters.contains ch.toUpper then ch else '_')
  | GameLevel.INTERMEDIATE =>
      rstrip
        ((g.target.map fun ch =>
          if ch = ' ' then [' ', ' ']
          else if g.guessed_letters.contains ch.toUpper then [ch, ' ']
          else ['_', ' ']).flatten)
where
  /-- Python `s.rstrip()`: drop trailing whitespace. -/
  rstrip (s : PyStr) : PyStr := (s.reverse.dropWhile Char.isWhitespace).reverse

/-- Constructor `__init__` with the randomly chosen target as a parameter. -/
def init (level : GameLevel) (target : PyStr) : HangmanGame :=
  { level := level
    lives := 6
    state := GameState.PLAYING
    guessed_letters := []
    timer_start := none
    timer_duration := 15
    target := target }

/-- Constructor `__init__` with `random.choice` modelled by an arbitrary index
`pick` into the level's fixed candidate list. -/
def construct (level : GameLevel) (pick : Nat) : HangmanGame :=
  init level ((wordsFor level).getD (pick % (wordsFor level).length) [])

/-- The mutating calls a caller can make on a game. -/
inductive Op where
  | guess (letter : PyStr)
  | timeout
  | startTimer (now : ℚ)

/-- One mutating call, caller-side: a raised `ValueError` leaves the caller's
game object unchanged. -/
def step (g : HangmanGame) : Op → HangmanGame
  | Op.guess letter =>
      match make_guess g letter with
      | Except.error _ => g
      | Except.ok (_, g2) => g2
  | Op.timeout => handle_timeout g
  | Op.startTimer now => start_timer g now

/-- A whole sequence of mutating calls. -/
def run (g : HangmanGame) (ops : List Op) : HangmanGame := ops.foldl step g

/-- Game states reachable from a fresh game by any sequence of mutating calls
(including calls made after the game is already over). -/
inductive Reachable : HangmanGame → Prop where
  | init (level : GameLevel) (pick : Nat) : Reachable (construct level pick)
  | step {g : HangmanGame} (op : Op) : Reachable g → Reachable (step g op)

/-- Guard for the disciplined caller: `submit_guess` and `expire_turn` are only
invoked while the game is in progress (`start_turn_timer` is unrestricted). -/
def opGuarded (g : HangmanGame) : Op → Prop
  | Op.startTimer _ => True
  | _ => g.state = GameState.PLAYING

/-- Game states reachable by a caller who never submits a guess or expires a
turn after the outcome is terminal. -/
inductive PlayReachable : HangmanGame → Prop where
  | init (level : GameLevel) (pick : Nat) : PlayReachable (construct level pick)
  | step {g : HangmanGame} (op : Op) :
      PlayReachable g → opGuarded g op → PlayReachable (step g op)

/-- Spec §4.1, modelled from the spec's words: the ceiling-like rounding where
exactly half a unit rounds toward the larger remaining value. -/
def round_half_up (q : ℚ) : ℤ := ⌊q + 1/2⌋

/-- Spec §4.1, modelled from the spec's words: basic-mode reference rendering —
each secret character becomes itself if its uppercase form was guessed and an
underscore otherwise, joined with single spaces. -/
def displaySpecBasic (secret : PyStr) (guessed : List Char) : PyStr :=
  List.intersperse ' '
    (secret.map fun ch => if guessed.contains ch.toUpper then ch else '_')

/-- Spec §4.1, modelled from the spec's words: intermediate-mode reference
rendering — a space becomes a double space, a revealed letter becomes
letter-plus-space, an unrevealed one placeholder-plus-space, and trailing
whitespace is trimmed. -/
def displaySpecIntermediate (secret : PyStr) (guessed : List Char) : PyStr :=
  get_display_word.rstrip
    ((secret.map fun ch =>
      if ch = ' ' then [' ', ' ']
      else if guessed.contains ch.toUpper then [ch, ' ']
      else ['_', ' ']).flatten)

/-- The state-classification invariant maintained by every mutating call. -/
def StateInv (g : HangmanGame) : Prop :=
  g.lives ≤ 6 ∧
  (g.state = GameState.LOST ↔ g.lives ≤ 0) ∧
  (g.state = GameState.WON ↔
    (0 < g.lives ∧ issubset (targetLetters g.target) g.guessed_letters = true))

/-- The intermediate record built by `make_guess` for a fresh guess `c`, just
before `_update_game_state` runs: the letter recorded, one life deducted on a
miss. -/
def guessedRecord (g : HangmanGame) (c : Char) : HangmanGame :=
  { g with
    guessed_letters := setAdd g.guessed_letters c
    lives := if (pyUpper g.target).contains c then g.lives else g.lives - 1 }

/-- Against target PYTHON: seven distinct wrong guesses. -/
def ops7 : List Op :=
  [Op.guess ['A'], Op.guess ['B'], Op.guess ['C'], Op.guess ['D'],
   Op.guess ['E'], Op.guess ['F'], Op.guess ['G']]

/-- Against target PYTHON: five wrong guesses, then the six winning letters. -/
def ops11 : List Op :=
  [Op.guess ['A'], Op.guess ['B'], Op.guess ['C'], Op.guess ['D'], Op.guess ['E'],
   Op.guess ['P'], Op.guess ['Y'], Op.guess ['T'], Op.guess ['H'], Op.guess ['O'],
   Op.guess ['N']]

/-- A fresh basic game on the first word of the list (PYTHON). -/
def gPython : HangmanGame := construct GameLevel.BASIC 0

/-- The PYTHON game after the letter P has been guessed. -/
def gPythonP : HangmanGame := step gPython (Op.guess ['P'])

/-- The PYTHON game five expired turns in (one life left, still playing). -/
def gPythonT5 : HangmanGame := run gPython (List.replicate 5 Op.timeout)

/-- The PYTHON game with a running timer that started at instant 0. -/
def gPythonTimer : HangmanGame := start_timer gPython 0

/-! Helper lemmas about the list-encoded character sets. -/

theorem issubset_iff (a b : List Char) :
    issubset a b = true ↔ ∀ x ∈ a, x ∈ b := by
  simp [issubset]

theorem mem_setAdd_of_mem {b : List Char} {x : Char} (c : Char) (h : x ∈ b) :
    x ∈ setAdd b c := by
  unfold setAdd
  split
  · exact h
  · exact List.mem_cons_of_mem c h

theorem issubset_setAdd {a b : List Char} (c : Char)
    (h : issubset a b = true) : issubset a (setAdd b c) = true := by
  rw [issubset_iff] at h ⊢
  exact fun x hx => mem_setAdd_of_mem c (h x hx)

/-- The validation guard in `make_guess` rejects exactly the inputs that are
not a single alphabetic code point. -/
theorem invalidGuess_iff (s : PyStr) :
    invalidGuess s = true ↔ ¬ (s.length = 1 ∧ s.all Char.isAlpha = true) := by
  cases s with
  | nil => simp [invalidGuess]
  | cons c t =>
      cases t with
      | nil => simp [invalidGuess, pyIsAlpha]
      | cons d u => simp [invalidGuess, pyIsAlpha]

/-! Frame and characterization lemmas for `_update_game_state`. -/

theorem update_frame (g : HangmanGame) :
    (update_game_state g).lives = g.lives ∧
    (update_game_state g).guessed_letters = g.guessed_letters ∧
    (update_game_state g).target = g.target ∧
    (update_game_state g).timer_start = g.timer_start ∧
    (update_game_state g).timer_duration = g.timer_duration ∧
    (update_game_state g).level = g.level := by
  unfold update_game_state
  split
  · exact ⟨rfl, rfl, rfl, rfl, rfl, rfl⟩
  · split
    · exact ⟨rfl, rfl, rfl, rfl, rfl, rfl⟩
    · exact ⟨rfl, rfl, rfl, rfl, rfl, rfl⟩

theorem update_state_eq (g : HangmanGame) :
    (update_game_state g).state =
      (if g.lives ≤ 0 then GameState.LOST
       else if issubset (targetLetters g.target) g.guessed_letters then GameState.WON
       else g.state) := by
  unfold update_game_state
  split
  · rfl
  · split
    · rfl
    · rfl

theorem update_playing_lives {g : HangmanGame}
    (hp : (update_game_state g).state = GameState.PLAYING) : 0 < g.lives := by
  rw [update_state_eq] at hp
  by_cases h1 : g.lives ≤ 0
  · rw [if_pos h1] at hp
    exact absurd hp (by decide)
  · omega

theorem update_playing_src {g : HangmanGame}
    (hp : (update_game_state g).state = GameState.PLAYING) :
    g.state = GameState.PLAYING := by
  rw [update_state_eq] at hp
  by_cases h1 : g.lives ≤ 0
  · rw [if_pos h1] at hp
    exact absurd hp (by decide)
  · rw [if_neg h1] at hp
    by_cases h2 : issubset (targetLetters g.target) g.guessed_letters = true
    · rw [if_pos h2] at hp
      exact absurd hp (by decide)
    · rwa [if_neg h2] at hp

theorem update_lost_of_nonpos {g : HangmanGame} (h : g.lives ≤ 0) :
    (update_game_state g).state = GameState.LOST := by
  rw [update_state_eq, if_pos h]

theorem update_won_of_covered {g : HangmanGame} (h1 : 0 < g.lives)
    (h2 : issubset (targetLetters g.target) g.guessed_letters = true) :
    (update_game_state g).state = GameState.WON := by
  rw [update_state_eq, if_neg (by omega), if_pos h2]

/-- Full case analysis of `make_guess`: a rejected input, an already-guessed
letter answered without mutation, or a fresh guess that records the letter,
decrements `lives` on a miss and re-evaluates the game state. -/
theorem make_guess_cases (g : HangmanGame) (letter : PyStr) :
    (invalidGuess letter = true ∧
      make_guess g letter = Except.error PyError.ValueError) ∨
    (invalidGuess letter = false ∧
      g.guessed_letters.contains (Char.toUpper (letter.headD 'A')) = true ∧
      make_guess g letter =
        Except.ok ((pyUpper g.target).contains (Char.toUpper (letter.headD 'A')), g)) ∨
    (invalidGuess letter = false ∧
      g.guessed_letters.contains (Char.toUpper (letter.headD 'A')) = false ∧
      make_guess g letter =
        Except.ok ((pyUpper g.target).contains (Char.toUpper (letter.headD 'A')),
          update_game_state (guessedRecord g (Char.toUpper (letter.headD 'A'))))) := by
  unfold make_guess
  by_cases hv : invalidGuess letter = true
  · left
    exact ⟨hv, by rw [if_pos hv]⟩
  · right
    have hv' : invalidGuess letter = false := by
      simpa using hv
    by_cases hc : g.guessed_letters.contains (Char.toUpper (letter.headD 'A')) = true
    · left
      refine ⟨hv', hc, ?_⟩
      rw [if_neg hv]
      simp only [hc, if_pos]
    · right
      have hc' : g.guessed_letters.contains (Char.toUpper (letter.headD 'A')) = false := by
        simpa using hc
      refine ⟨hv', hc', ?_⟩
      rw [if_neg hv]
      simp only [hc', Bool.false_eq_true, if_neg]
      unfold guessedRecord
      by_cases hcor : (pyUpper g.target).contains (Char.toUpper (letter.headD 'A')) = true
      · rw [if_pos hcor, if_pos hcor]
        simp
      · rw [if_neg hcor, if_neg hcor]
        simp

/-! Field computations for `guessedRecord`. -/

theorem guessedRecord_lives (g : HangmanGame) (c : Char) :
    (guessedRecord g c).lives =
      (if (pyUpper g.target).contains c then g.lives else g.lives - 1) := rfl

theorem guessedRecord_state (g : HangmanGame) (c : Char) :
    (guessedRecord g c).state = g.state := rfl

theorem guessedRecord_target (g : HangmanGame) (c : Char) :
    (guessedRecord g c).target = g.target := rfl

theorem guessedRecord_guessed (g : HangmanGame) (c : Char) :
    (guessedRecord g c).guessed_letters = setAdd g.guessed_letters c := rfl

theorem guessedRecord_timer (g : HangmanGame) (c : Char) :
    (guessedRecord g c).timer_start = g.timer_start ∧
    (guessedRecord g c).timer_duration = g.timer_duration := ⟨rfl, rfl⟩

/-! The state-classification invariant: establishment and preservation. -/

theorem stateInv_update (g : HangmanGame)
    (h6 : g.lives ≤ 6)
    (hlost : g.state = GameState.LOST → g.lives ≤ 0)
    (hwon : g.state = GameState.WON →
      issubset (targetLetters g.target) g.guessed_letters = true) :
    StateInv (update_game_state g) := by
  obtain ⟨hl, hg, ht, -, -, -⟩ := update_frame g
  have hs := update_state_eq g
  unfold StateInv
  rw [hl, hg, ht, hs]
  by_cases h1 : g.lives ≤ 0
  · rw [if_pos h1]
    refine ⟨h6, ⟨fun _ => h1, fun _ => rfl⟩, ?_, ?_⟩
    · intro hw
      exact GameState.noConfusion hw
    · rintro ⟨hpos, -⟩
      omega
  · rw [if_neg h1]
    by_cases h2 : issubset (targetLetters g.target) g.guessed_letters = true
    · rw [if_pos h2]
      refine ⟨h6, ⟨fun hw => GameState.noConfusion hw, fun hc => absurd hc h1⟩,
        fun _ => ⟨by omega, h2⟩, fun _ => rfl⟩
    · rw [if_neg h2]
      refine ⟨h6, ⟨fun hc => hlost hc, fun hc => absurd hc h1⟩, ?_, ?_⟩
      · intro hw
        exact absurd (hwon hw) h2
      · rintro ⟨-, hs2⟩
        exact absurd hs2 h2

theorem stateInv_start_timer {g : HangmanGame} (h : StateInv g) (now : ℚ) :
    StateInv (start_timer g now) := h

theorem stateInv_handle_timeout {g : HangmanGame} (h : StateInv g) :
    StateInv (handle_timeout g) := by
  obtain ⟨h6, hlost, hwon⟩ := h
  show StateInv
    { update_game_state { g with lives := g.lives - 1 } with timer_start := none }
  have hinv : StateInv (update_game_state { g with lives := g.lives - 1 }) := by
    apply stateInv_update
    · show g.lives - 1 ≤ 6
      omega
    · intro hst
      have := hlost.mp hst
      show g.lives - 1 ≤ 0
      omega
    · intro hst
      exact (hwon.mp hst).2
  exact hinv

theorem stateInv_make_guess {g : HangmanGame} (h : StateInv g) (letter : PyStr) :
    StateInv (step g (Op.guess letter)) := by
  obtain ⟨h6, hlost, hwon⟩ := h
  rcases make_guess_cases g letter with ⟨-, heq⟩ | ⟨-, -, heq⟩ | ⟨-, -, heq⟩
  · simp only [step, heq]
    exact ⟨h6, hlost, hwon⟩
  · simp only [step, heq]
    exact ⟨h6, hlost, hwon⟩
  · simp only [step, heq]
    apply stateInv_update
    · show (if (pyUpper g.target).contains (Char.toUpper (letter.headD 'A')) then
          g.lives else g.lives - 1) ≤ 6
      split <;> omega
    · intro hst
      have := hlost.mp hst
      show (if (pyUpper g.target).contains (Char.toUpper (letter.headD 'A')) then
          g.lives else g.lives - 1) ≤ 0
      split <;> omega
    · intro hst
      exact issubset_setAdd _ (hwon.mp hst).2

theorem stateInv_step {g : HangmanGame} (h : StateInv g) (op : Op) :
    StateInv (step g op) := by
  cases op with
  | guess letter => exact stateInv_make_guess h letter
  | timeout => exact stateInv_handle_timeout h
  | startTimer now => exact stateInv_start_timer h now

/-! Facts about freshly constructed games. -/

theorem getD_mem_of_lt {α : Type} {l : List α} {n : Nat} {d : α}
    (h : n < l.length) : l.getD n d ∈ l := by
  rw [List.getD_eq_getElem?_getD, List.getElem?_eq_getElem h]
  exact List.getElem_mem h

theorem wordsFor_length_pos (level : GameLevel) : 0 < (wordsFor level).length := by
  cases level <;> decide

theorem construct_target_mem (level : GameLevel) (pick : Nat) :
    (construct level pick).target ∈ wordsFor level :=
  getD_mem_of_lt (Nat.mod_lt pick (wordsFor_length_pos level))

theorem words_have_letters (level : GameLevel) :
    ∀ w ∈ wordsFor level, issubset (targetLetters w) [] = false := by
  cases level <;> decide

theorem stateInv_construct (level : GameLevel) (pick : Nat) :
    StateInv (construct level pick) := by
  have hsub := words_have_letters level _ (construct_target_mem level pick)
  refine ⟨le_refl (6 : Int), ?_, ?_⟩
  · show GameState.PLAYING = GameState.LOST ↔ (6 : Int) ≤ 0
    constructor
    · intro hc
      exact GameState.noConfusion hc
    · intro hc
      omega
  · constructor
    · intro hc
      exact GameState.noConfusion hc
    · rintro ⟨-, hs⟩
      exact Bool.noConfusion (hsub ▸ hs)

theorem reachable_stateInv {g : HangmanGame} (h : Reachable g) : StateInv g := by
  induction h with
  | init level pick => exact stateInv_construct level pick
  | step op _ ih => exact stateInv_step ih op

theorem reachable_run {g : HangmanGame} (h : Reachable g) (ops : List Op) :
    Reachable (run g ops) := by
  induction ops generalizing g with
  | nil => exact h
  | cons op rest ih => exact ih (Reachable.step op h)

/-! Frame lemmas for `handle_timeout`. -/

theorem handle_timeout_lives (g : HangmanGame) :
    (handle_timeout g).lives = g.lives - 1 := by
  show (update_game_state { g with lives := g.lives - 1 }).lives = g.lives - 1
  exact (update_frame _).1

theorem handle_timeout_state (g : HangmanGame) :
    (handle_timeout g).state =
      (update_game_state { g with lives := g.lives - 1 }).state := rfl

theorem handle_timeout_frame (g : HangmanGame) :
    (handle_timeout g).guessed_letters = g.guessed_letters ∧
    (handle_timeout g).target = g.target ∧
    (handle_timeout g).level = g.level ∧
    (handle_timeout g).timer_start = none ∧
    (handle_timeout g).timer_duration = g.timer_duration := by
  obtain ⟨-, hg, ht, -, hd, hl⟩ := update_frame ({ g with lives := g.lives - 1 })
  exact ⟨hg, ht, hl, rfl, hd⟩

/-! Lives bounds for the disciplined caller. -/

theorem livesInv_step {g : HangmanGame}
    (h : 0 ≤ g.lives ∧ g.lives ≤ 6 ∧ (g.state = GameState.PLAYING → 1 ≤ g.lives))
    (op : Op) (hguard : opGuarded g op) :
    0 ≤ (step g op).lives ∧ (step g op).lives ≤ 6 ∧
      ((step g op).state = GameState.PLAYING → 1 ≤ (step g op).lives) := by
  obtain ⟨h0, h6, hp⟩ := h
  cases op with
  | startTimer now => exact ⟨h0, h6, hp⟩
  | timeout =>
      have h1 : 1 ≤ g.lives := hp hguard
      show 0 ≤ (handle_timeout g).lives ∧ (handle_timeout g).lives ≤ 6 ∧
        ((handle_timeout g).state = GameState.PLAYING → 1 ≤ (handle_timeout g).lives)
      rw [handle_timeout_lives]
      refine ⟨by omega, by omega, ?_⟩
      intro hps
      rw [handle_timeout_state] at hps
      have h2 := update_playing_lives hps
      have hlv : ({ g with lives := g.lives - 1 } : HangmanGame).lives = g.lives - 1 := rfl
      rw [hlv] at h2
      omega
  | guess letter =>
      have h1 : 1 ≤ g.lives := hp hguard
      rcases make_guess_cases g letter with ⟨-, heq⟩ | ⟨-, -, heq⟩ | ⟨-, -, heq⟩
      · simp only [step, heq]
        exact ⟨h0, h6, hp⟩
      · simp only [step, heq]
        exact ⟨h0, h6, hp⟩
      · simp only [step, heq]
        obtain ⟨hl, -, -, -, -, -⟩ :=
          update_frame (guessedRecord g (Char.toUpper (letter.headD 'A')))
        rw [hl, guessedRecord_lives]
        by_cases hcor : (pyUpper g.target).contains (Char.toUpper (letter.headD 'A')) = true
        · rw [if_pos hcor]
          exact ⟨by omega, by omega, fun _ => by omega⟩
        · rw [if_neg hcor]
          refine ⟨by omega, by omega, ?_⟩
          intro hps
          have h2 := update_playing_lives hps
          rw [guessedRecord_lives, if_neg hcor] at h2
          omega

theorem playReachable_lives {g : HangmanGame} (h : PlayReachable g) :
    0 ≤ g.lives ∧ g.lives ≤ 6 ∧ (g.state = GameState.PLAYING → 1 ≤ g.lives) := by
  induction h with
  | init level pick =>
      refine ⟨?_, ?_, ?_⟩
      · show (0 : Int) ≤ 6
        decide
      · show (6 : Int) ≤ 6
        decide
      · intro _
        show (1 : Int) ≤ 6
        decide
  | step op _ hguard ih => exact livesInv_step ih op hguard

/-! Outcome-transition lemmas. -/

theorem step_playing_src {g : HangmanGame} {op : Op}
    (hp : (step g op).state = GameState.PLAYING) : g.state = GameState.PLAYING := by
  cases op with
  | startTimer now => exact hp
  | timeout =>
      have hp2 : (handle_timeout g).state = GameState.PLAYING := hp
      rw [handle_timeout_state] at hp2
      have h3 := update_playing_src hp2
      exact h3
  | guess letter =>
      rcases make_guess_cases g letter with ⟨-, heq⟩ | ⟨-, -, heq⟩ | ⟨-, -, heq⟩
      · simpa only [step, heq] using hp
      · simpa only [step, heq] using hp
      · simp only [step, heq] at hp
        have h3 := update_playing_src hp
        rw [guessedRecord_state] at h3
        exact h3

theorem lost_step {g : HangmanGame} (hInv : StateInv g)
    (hl : g.state = GameState.LOST) (op : Op) :
    (step g op).state = GameState.LOST := by
  have hlives : g.lives ≤ 0 := hInv.2.1.mp hl
  cases op with
  | startTimer now => exact hl
  | timeout =>
      show (handle_timeout g).state = GameState.LOST
      rw [handle_timeout_state]
      apply update_lost_of_nonpos
      show g.lives - 1 ≤ 0
      omega
  | guess letter =>
      rcases make_guess_cases g letter with ⟨-, heq⟩ | ⟨-, -, heq⟩ | ⟨-, -, heq⟩
      · simpa only [step, heq] using hl
      · simpa only [step, heq] using hl
      · simp only [step, heq]
        apply update_lost_of_nonpos
        rw [guessedRecord_lives]
        split <;> omega

theorem won_step {g : HangmanGame} (hInv : StateInv g)
    (hw : g.state = GameState.WON) (op : Op) :
    (step g op).state = GameState.WON ∨
      ((step g op).lives ≤ 0 ∧ (step g op).state = GameState.LOST) := by
  obtain ⟨hpos, hsub⟩ := hInv.2.2.mp hw
  cases op with
  | startTimer now => exact Or.inl hw
  | timeout =>
      by_cases hz : g.lives - 1 ≤ 0
      · right
        show (handle_timeout g).lives ≤ 0 ∧ (handle_timeout g).state = GameState.LOST
        rw [handle_timeout_lives, handle_timeout_state]
        refine ⟨hz, update_lost_of_nonpos ?_⟩
        show g.lives - 1 ≤ 0
        exact hz
      · left
        show (handle_timeout g).state = GameState.WON
        rw [handle_timeout_state]
        refine update_won_of_covered ?_ ?_
        · show 0 < g.lives - 1
          omega
        · show issubset (targetLetters g.target) g.guessed_letters = true
          exact hsub
  | guess letter =>
      rcases make_guess_cases g letter with ⟨-, heq⟩ | ⟨-, -, heq⟩ | ⟨-, -, heq⟩
      · left
        simpa only [step, heq] using hw
      · left
        simpa only [step, heq] using hw
      · have hsub2 := issubset_setAdd (Char.toUpper (letter.headD 'A')) hsub
        by_cases hz : (if (pyUpper g.target).contains (Char.toUpper (letter.headD 'A')) then
            g.lives else g.lives - 1) ≤ 0
        · right
          simp only [step, heq]
          obtain ⟨hl, -, -, -, -, -⟩ :=
            update_frame (guessedRecord g (Char.toUpper (letter.headD 'A')))
          rw [hl, guessedRecord_lives]
          refine ⟨hz, update_lost_of_nonpos ?_⟩
          rw [guessedRecord_lives]
          exact hz
        · left
          simp only [step, heq]
          refine update_won_of_covered ?_ ?_
          · rw [guessedRecord_lives]
            omega
          · rw [guessedRecord_target, guessedRecord_guessed]
            exact hsub2

theorem lost_run {g : HangmanGame} (h : Reachable g)
    (hl : g.state = GameState.LOST) (ops : List Op) :
    (run g ops).state = GameState.LOST := by
  induction ops generalizing g with
  | nil => exact hl
  | cons op rest ih =>
      exact ih (Reachable.step op h) (lost_step (reachable_stateInv h) hl op)

/-- Python truncation and mathematical floor agree once clamped at zero. -/
theorem max_zero_pyInt (q : ℚ) : max 0 (pyInt q) = max 0 ⌊q⌋ := by
  unfold pyInt
  split
  · rfl
  · rename_i hq
    push_neg at hq
    have h1 : (⌈q⌉ : ℤ) ≤ 0 := by
      have h2 : (⌈q⌉ : ℤ) ≤ ⌈(0 : ℚ)⌉ := Int.ceil_le_ceil hq.le
      simpa using h2
    have h3 : (⌊q⌋ : ℤ) ≤ 0 := Int.floor_nonpos hq.le
    rw [max_eq_left h1, max_eq_left h3]

/-! The claims. -/

/-- C1 counterexample: the claim quantifies over every sequence of mutating
calls, but seven distinct wrong guesses against PYTHON — one of them after the
game is already lost — drive Lives to −1, outside [0, 6]. -/
theorem C1_counterexample :
    Reachable (run gPython ops7) ∧ (run gPython ops7).lives < 0 :=
  ⟨reachable_run (Reachable.init GameLevel.BASIC 0) ops7, by decide⟩

/-- C1 (amended): Lives stays within [0, 6] at every observation point
provided no submit_guess or expire_turn call is made once the Outcome is
terminal; an unguarded post-terminal life-decrementing call can push Lives
below 0 (see the counterexample). -/
theorem C1_lives_in_range {g : HangmanGame} (h : PlayReachable g) :
    0 ≤ g.lives ∧ g.lives ≤ 6 :=
  ⟨(playReachable_lives h).1, (playReachable_lives h).2.1⟩

/-- C1 witness: the bounds at a concrete state, one wrong guess in. -/
theorem C1_witness :
    0 ≤ (step gPython (Op.guess ['Z'])).lives ∧
      (step gPython (Op.guess ['Z'])).lives ≤ 6 :=
  C1_lives_in_range
    (PlayReachable.step (Op.guess ['Z']) (PlayReachable.init GameLevel.BASIC 0) rfl)

/-- C2 counterexample: a reachable game that is Won with one life left flips
to Lost when one more wrong letter is submitted, so a terminal Outcome is not
preserved by subsequent calls. -/
theorem C2_counterexample :
    Reachable (run gPython ops11) ∧
    (run gPython ops11).state = GameState.WON ∧
    (step (run gPython ops11) (Op.guess ['Z'])).state = GameState.LOST :=
  ⟨reachable_run (Reachable.init GameLevel.BASIC 0) ops11, by decide, by decide⟩

/-- C2 (amended): the Outcome never reverts to InProgress; Lost is absorbing
under every further sequence of calls; and a Won game stays Won under any
further call except a life-decrementing one that drives Lives to ≤ 0, which
turns it Lost (exactly the situation of the counterexample). -/
theorem C2_outcome_monotone_amended {g : HangmanGame} (h : Reachable g) (op : Op) :
    ((step g op).state = GameState.PLAYING → g.state = GameState.PLAYING) ∧
    (g.state = GameState.LOST →
      ∀ ops : List Op, (run g ops).state = GameState.LOST) ∧
    (g.state = GameState.WON →
      (step g op).state = GameState.WON ∨
        ((step g op).lives ≤ 0 ∧ (step g op).state = GameState.LOST)) :=
  ⟨fun hp => step_playing_src hp,
   fun hl ops => lost_run h hl ops,
   fun hw => won_step (reachable_stateInv h) hw op⟩

/-- C2 witness: the amended statement at a fresh game and a timeout call. -/
theorem C2_witness :
    ((step gPython Op.timeout).state = GameState.PLAYING →
      gPython.state = GameState.PLAYING) ∧
    (gPython.state = GameState.LOST →
      ∀ ops : List Op, (run gPython ops).state = GameState.LOST) ∧
    (gPython.state = GameState.WON →
      (step gPython Op.timeout).state = GameState.WON ∨
        ((step gPython Op.timeout).lives ≤ 0 ∧
          (step gPython Op.timeout).state = GameState.LOST)) :=
  C2_outcome_monotone_amended (Reachable.init GameLevel.BASIC 0) Op.timeout

/-- C3: at every reachable state the Outcome is Lost exactly when Lives has
reached 0 (is ≤ 0), and Won exactly when Lives > 0 and every alphabetic
character of the Secret, case-folded, is among the guessed letters; the loss
check runs before the win check inside `_update_game_state`. -/
theorem C3_outcome_characterization {g : HangmanGame} (h : Reachable g) :
    (g.state = GameState.LOST ↔ g.lives ≤ 0) ∧
    (g.state = GameState.WON ↔
      (0 < g.lives ∧ issubset (targetLetters g.target) g.guessed_letters = true)) :=
  ⟨(reachable_stateInv h).2.1, (reachable_stateInv h).2.2⟩

/-- C3 witness: the characterization at a concrete state, one expired turn in. -/
theorem C3_witness :
    ((step gPython Op.timeout).state = GameState.LOST ↔
      (step gPython Op.timeout).lives ≤ 0) ∧
    ((step gPython Op.timeout).state = GameState.WON ↔
      (0 < (step gPython Op.timeout).lives ∧
        issubset (targetLetters (step gPython Op.timeout).target)
          (step gPython Op.timeout).guessed_letters = true)) :=
  C3_outcome_characterization
    (Reachable.step Op.timeout (Reachable.init GameLevel.BASIC 0))

/-- C4: an input that is not exactly one alphabetic code point makes
submit_guess fail with the InvalidInput error (`ValueError`) and leaves the
whole state unchanged; an input that is exactly one alphabetic code point
never produces this error. -/
theorem C4_input_validation (g : HangmanGame) (letter : PyStr) :
    (¬ (letter.length = 1 ∧ letter.all Char.isAlpha = true) →
      make_guess g letter = Except.error PyError.ValueError ∧
      step g (Op.guess letter) = g) ∧
    ((letter.length = 1 ∧ letter.all Char.isAlpha = true) →
      ∃ b g2, make_guess g letter = Except.ok (b, g2)) := by
  constructor
  · intro hbad
    have hv : invalidGuess letter = true := (invalidGuess_iff letter).mpr hbad
    have herr : make_guess g letter = Except.error PyError.ValueError := by
      unfold make_guess
      rw [if_pos hv]
    exact ⟨herr, by simp only [step, herr]⟩
  · intro hok
    rcases make_guess_cases g letter with ⟨hvt, -⟩ | ⟨-, -, heq⟩ | ⟨-, -, heq⟩
    · exact absurd hok ((invalidGuess_iff letter).mp hvt)
    · exact ⟨_, _, heq⟩
    · exact ⟨_, _, heq⟩

/-- C4 witness: the digit 1 is rejected without mutation, the letter p is
accepted, both on a fresh PYTHON game. -/
theorem C4_witness :
    (make_guess gPython ['1'] = Except.error PyError.ValueError ∧
      step gPython (Op.guess ['1']) = gPython) ∧
    (∃ b g2, make_guess gPython ['p'] = Except.ok (b, g2)) :=
  ⟨(C4_input_validation gPython ['1']).1 (by decide),
   (C4_input_validation gPython ['p']).2 (by decide)⟩

/-- C5: re-submitting a letter whose uppercase form is already in
GuessedLetters mutates nothing — the very same state is returned — and the
returned boolean is whether the letter occurs case-insensitively in the
Secret, i.e. the same boolean the first submission computed. -/
theorem C5_repeat_idempotent (g : HangmanGame) (c : Char)
    (halpha : c.isAlpha = true)
    (hmem : g.guessed_letters.contains c.toUpper = true) :
    make_guess g [c] = Except.ok ((pyUpper g.target).contains c.toUpper, g) := by
  rcases make_guess_cases g [c] with ⟨hvt, -⟩ | ⟨-, -, heq⟩ | ⟨-, hc, -⟩
  · rw [invalidGuess_iff] at hvt
    exact absurd ⟨rfl, by simp [halpha]⟩ hvt
  · exact heq
  · exact Bool.noConfusion (hmem.symm.trans hc)

/-- C5 witness: guessing p again after P was guessed on a PYTHON game. -/
theorem C5_witness :
    make_guess gPythonP ['p'] =
      Except.ok ((pyUpper gPythonP.target).contains ('p'.toUpper), gPythonP) :=
  C5_repeat_idempotent gPythonP 'p' (by decide) (by decide)

/-- C6: render_display agrees with the mode-specific reference formatting in
both modes, and the intermediate-mode secret HELLO WORLD with no guesses
renders with a triple gap between the words. -/
theorem C6_render_display (g : HangmanGame) :
    (g.level = GameLevel.BASIC →
      get_display_word g = displaySpecBasic g.target g.guessed_letters) ∧
    (g.level = GameLevel.INTERMEDIATE →
      get_display_word g = displaySpecIntermediate g.target g.guessed_letters) ∧
    get_display_word (init GameLevel.INTERMEDIATE ("HELLO WORLD".toList)) =
      ("_ _ _ _ _   _ _ _ _ _").toList := by
  refine ⟨?_, ?_, by decide⟩
  · intro hb
    unfold get_display_word displaySpecBasic
    rw [hb]
  · intro hi
    unfold get_display_word displaySpecIntermediate
    rw [hi]

/-- C6 witness: both mode equalities at concrete fresh games. -/
theorem C6_witness :
    get_display_word (init GameLevel.BASIC ("PYTHON".toList)) =
      displaySpecBasic (init GameLevel.BASIC ("PYTHON".toList)).target
        (init GameLevel.BASIC ("PYTHON".toList)).guessed_letters ∧
    get_display_word (init GameLevel.INTERMEDIATE ("HELLO WORLD".toList)) =
      displaySpecIntermediate
        (init GameLevel.INTERMEDIATE ("HELLO WORLD".toList)).target
        (init GameLevel.INTERMEDIATE ("HELLO WORLD".toList)).guessed_letters :=
  ⟨(C6_render_display (init GameLevel.BASIC ("PYTHON".toList))).1 rfl,
   (C6_render_display (init GameLevel.INTERMEDIATE ("HELLO WORLD".toList))).2.1 rfl⟩

/-- C7: expire_turn decrements Lives by exactly one, clears the timer to
absent, consumes no letter and touches neither Secret nor Difficulty; the new
Outcome is re-evaluated with the loss check before the win check, so reaching
0 lives means Lost. -/
theorem C7_expire_turn (g : HangmanGame) :
    (handle_timeout g).lives = g.lives - 1 ∧
    (handle_timeout g).timer_start = none ∧
    (handle_timeout g).guessed_letters = g.guessed_letters ∧
    (handle_timeout g).target = g.target ∧
    (handle_timeout g).level = g.level ∧
    (handle_timeout g).state =
      (if g.lives - 1 ≤ 0 then GameState.LOST
       else if issubset (targetLetters g.target) g.guessed_letters then GameState.WON
       else g.state) ∧
    (g.lives = 1 → (handle_timeout g).state = GameState.LOST) := by
  obtain ⟨hg, ht, hl, hts, -⟩ := handle_timeout_frame g
  refine ⟨handle_timeout_lives g, hts, hg, ht, hl, ?_, ?_⟩
  · rw [handle_timeout_state, update_state_eq]
  · intro h1
    rw [handle_timeout_state]
    apply update_lost_of_nonpos
    show g.lives - 1 ≤ 0
    omega

/-- C7 witness: with one life left, an expired turn makes the game Lost. -/
theorem C7_witness :
    gPythonT5.lives = 1 ∧ (handle_timeout gPythonT5).state = GameState.LOST :=
  ⟨by decide, (C7_expire_turn gPythonT5).2.2.2.2.2.2 (by decide)⟩

/-- C8: remaining_time is absent with no timer; with a timer started at
`start` and the fixed 15-second duration it equals
max(0, round_half_up(15 − elapsed)) and is never negative. -/
theorem C8_remaining_time (g : HangmanGame) (now start : ℚ) :
    (g.timer_start = none → get_remaining_time g now = none) ∧
    (g.timer_start = some start → g.timer_duration = 15 →
      get_remaining_time g now = some (max 0 (round_half_up (15 - (now - start)))) ∧
      ∀ r : ℤ, get_remaining_time g now = some r → 0 ≤ r) := by
  constructor
  · intro hn
    unfold get_remaining_time
    rw [hn]
  · intro hs hd
    have hval : get_remaining_time g now =
        some (max 0 (pyInt (g.timer_duration - (now - start) + 1/2))) := by
      unfold get_remaining_time
      rw [hs]
    rw [hd, max_zero_pyInt] at hval
    constructor
    · exact hval
    · intro r hr
      rw [hval] at hr
      have hr2 := Option.some.inj hr
      rw [hr2.symm]
      exact le_max_left 0 _

/-- C8 witness: the formula at a timer started at instant 0 queried at
instant 3, and the absent case on a fresh game. -/
theorem C8_witness :
    get_remaining_time gPython 0 = none ∧
    get_remaining_time gPythonTimer 3 =
      some (max 0 (round_half_up (15 - (3 - 0)))) ∧
    ∀ r : ℤ, get_remaining_time gPythonTimer 3 = some r → 0 ≤ r :=
  ⟨(C8_remaining_time gPython 0 0).1 rfl,
   ((C8_remaining_time gPythonTimer 3 0).2 rfl rfl).1,
   ((C8_remaining_time gPythonTimer 3 0).2 rfl rfl).2⟩

/-- C9: a freshly constructed game has 6 lives, is in progress, has no guessed
letters and no running timer, and its Secret is a member of the fixed list for
its difficulty, non-empty; basic-mode secrets contain no space. -/
theorem C9_fresh_game (level : GameLevel) (pick : Nat) :
    (construct level pick).lives = 6 ∧
    (construct level pick).state = GameState.PLAYING ∧
    (construct level pick).guessed_letters = [] ∧
    (construct level pick).timer_start = none ∧
    (construct level pick).target ∈ wordsFor level ∧
    (construct level pick).target ≠ [] ∧
    (level = GameLevel.BASIC → ' ' ∉ (construct level pick).target) := by
  have hmem := construct_target_mem level pick
  refine ⟨rfl, rfl, rfl, rfl, hmem, ?_, ?_⟩
  · have hne : ∀ w ∈ wordsFor level, w ≠ [] := by cases level <;> decide
    exact hne _ hmem
  · intro hb
    subst hb
    have hnsp : ∀ w ∈ wordsFor GameLevel.BASIC, ' ' ∉ w := by decide
    exact hnsp _ hmem

/-- C9 witness: a concrete fresh basic game. -/
theorem C9_witness :
    (construct GameLevel.BASIC 3).lives = 6 ∧
    (construct GameLevel.BASIC 3).state = GameState.PLAYING ∧
    (construct GameLevel.BASIC 3).guessed_letters = [] ∧
    (construct GameLevel.BASIC 3).timer_start = none ∧
    (construct GameLevel.BASIC 3).target ∈ wordsFor GameLevel.BASIC ∧
    (construct GameLevel.BASIC 3).target ≠ [] ∧
    ' ' ∉ (construct GameLevel.BASIC 3).target :=
  ⟨(C9_fresh_game GameLevel.BASIC 3).1,
   (C9_fresh_game GameLevel.BASIC 3).2.1,
   (C9_fresh_game GameLevel.BASIC 3).2.2.1,
   (C9_fresh_game GameLevel.BASIC 3).2.2.2.1,
   (C9_fresh_game GameLevel.BASIC 3).2.2.2.2.1,
   (C9_fresh_game GameLevel.BASIC 3).2.2.2.2.2.1,
   (C9_fresh_game GameLevel.BASIC 3).2.2.2.2.2.2 rfl⟩

/-- C10: a submit_guess call — whether rejected, a repeat, or a fresh guess —
never changes the timer start instant or duration. -/
theorem C10_guess_preserves_timer (g : HangmanGame) (letter : PyStr) :
    (step g (Op.guess letter)).timer_start = g.timer_start ∧
    (step g (Op.guess letter)).timer_duration = g.timer_duration := by
  rcases make_guess_cases g letter with ⟨-, heq⟩ | ⟨-, -, heq⟩ | ⟨-, -, heq⟩
  · simp only [step, heq]
    exact ⟨trivial, trivial⟩
  · simp only [step, heq]
    exact ⟨trivial, trivial⟩
  · simp only [step, heq]
    obtain ⟨-, -, -, hts, htd, -⟩ :=
      update_frame (guessedRecord g (Char.toUpper (letter.headD 'A')))
    obtain ⟨h1, h2⟩ := guessedRecord_timer g (Char.toUpper (letter.headD 'A'))
    exact ⟨hts.trans h1, htd.trans h2⟩

end Hangman
